import Mathlib

/-!
Verification of the ai_apogee conversation orchestration and analytics engine.

The development shallowly embeds the turn-scheduling logic of
`src/web-server.js` (`processAIResponses`, `setupSocketHandlers`) and the
analytics engine of `src/utils/analytics.js` (`ConversationAnalytics`) together
with the replay path of `src/utils/memory.js` (`loadConversation`).

Modelling conventions:
* JavaScript strings are Lean `String`s; the helpers below reproduce the
  JavaScript operations used by the source (`includes`, `toLowerCase`,
  `substring(0, n)`, `trim`, tokenisation on `\w`/`\s` classes).
* Wall-clock timestamps (`new Date().toISOString()`) are modelled as `Nat`
  values supplied by the caller: time is an external input of the program.
* `Math.random()` is modelled by an externally supplied stream
  `rand : Nat -> Nat`; an expression `Math.floor(Math.random() * n)` becomes
  `rand i % n`, which ranges over exactly the values the source can produce.
* Provider network calls are opaque capabilities in the source
  (`provider.sendMessage`); a batch consults an oracle
  `outcomes : Nat -> Option String` giving, for the k-th queued provider,
  either its (raw) response text or a thrown error (`none`).
* The regex-chain idea extractor `extractThemes` is kept as an explicit
  function parameter `extract : String -> List Idea` of the analytics
  operations: the properties verified here hold for every deterministic
  extraction function, which is exactly the determinism proviso the
  specification places on the extraction logic.  Concrete evaluations
  instantiate it with `trivialExtraction`, which agrees with the source
  extractor on every input used in those evaluations (texts on which no
  pattern of the source matches).
-/

namespace Apogee

/-! ## JavaScript string primitives -/

/-- JavaScript `toLowerCase` (ASCII case folding, which covers every string
manipulated by the analytics code). -/
def jsToLower (s : String) : String := ⟨s.data.map Char.toLower⟩

/-- JavaScript `substring(0, n)`. -/
def jsTake (n : Nat) (s : String) : String := ⟨s.data.take n⟩

/-- Decides whether `pre` is a prefix of `l` (used to implement `includes`). -/
def startsWithCL (pre l : List Char) : Bool :=
  match pre, l with
  | [], _ => true
  | _ :: _, [] => false
  | a :: as, b :: bs => a == b && startsWithCL as bs

/-- Decides whether `sub` occurs contiguously inside `l`. -/
def subOfCL (sub l : List Char) : Bool :=
  match l with
  | [] => sub.isEmpty
  | _ :: rest => startsWithCL sub l || subOfCL sub rest

/-- JavaScript `s.includes(sub)`: substring containment. -/
def jsIncludes (s sub : String) : Bool := subOfCL sub.data s.data

/-- Whitespace recognised by the model (the JavaScript `\s` class restricted to
the ASCII whitespace actually occurring in the handled texts). -/
def jsIsSpace (c : Char) : Bool :=
  c == ' ' || c == '\t' || c == '\n' || c == '\r'

/-- Character class `\w` of JavaScript regexes: ASCII letters, digits and
underscore. -/
def jsIsWordChar (c : Char) : Bool := c.isAlphanum || c == '_'

/-- JavaScript `trim`: strip whitespace from both ends. -/
def jsTrim (s : String) : String :=
  ⟨((s.data.dropWhile jsIsSpace).reverse.dropWhile jsIsSpace).reverse⟩

theorem startsWithCL_iff (pre l : List Char) :
    startsWithCL pre l = true ↔ pre <+: l := by
  induction pre generalizing l with
  | nil => simp [startsWithCL]
  | cons a as ih =>
    cases l with
    | nil => simp [startsWithCL]
    | cons b bs =>
      simp only [startsWithCL, Bool.and_eq_true, beq_iff_eq]
      rw [ih]
      constructor
      · rintro ⟨rfl, t, ht⟩
        exact ⟨t, by rw [List.cons_append, ht]⟩
      · intro h
        rcases h with ⟨t, ht⟩
        injection ht with h1 h2
        exact ⟨h1, ⟨t, h2⟩⟩

theorem subOfCL_iff (sub l : List Char) :
    subOfCL sub l = true ↔ sub <:+: l := by
  induction l with
  | nil =>
    simp only [subOfCL, List.isEmpty_iff]
    constructor
    · rintro rfl; exact List.infix_rfl
    · intro h; exact List.eq_nil_of_infix_nil h
  | cons c rest ih =>
    simp only [subOfCL, Bool.or_eq_true, startsWithCL_iff, ih]
    rw [List.infix_cons_iff]

/-- Substring containment is transitive through `jsIncludes`. -/
theorem jsIncludes_trans {s a b : String}
    (hab : subOfCL a.data b.data = true) (hb : jsIncludes s b = true) :
    jsIncludes s a = true := by
  unfold jsIncludes at hb ⊢
  rw [subOfCL_iff] at hab hb ⊢
  exact hab.trans hb

/-! ## Analytics data model (`src/utils/analytics.js`) -/

/-- Candidate idea produced by the extraction step (`extractThemes` output
shape): captured text, pattern category, surrounding context and a strength
score.  Strengths are modelled as rationals. -/
structure Idea where
  text : String
  type : String
  context : String
  strength : ℚ
deriving DecidableEq

/-- Entry of `this.themes` in the unique-ideas format maintained by
`updateUniqueIdeas`. -/
structure ThemeEntry where
  count : Nat
  totalStrength : ℚ
  text : String
  type : String
  contexts : List (String × Nat)
  summary : String
  firstIntroduced : Nat
deriving DecidableEq

/-- Insight tag recorded by `extractInsights`. -/
structure Insight where
  type : String
  text : String
  timestamp : Nat
deriving DecidableEq

/-- Sentiment classification returned by `analyzeSentiment`. -/
inductive Sentiment where
  | positive
  | neutral
  | negative
deriving DecidableEq

/-- Entry of `this.sentimentHistory`. -/
structure SentimentEntry where
  timestamp : Nat
  speaker : String
  sentiment : Sentiment
deriving DecidableEq

/-- Consensus sample.  The short-history sentinel of `calculateConsensus` only
carries `level` and `summary`; the remaining fields are `none` there and
populated on a full computation, mirroring the two object shapes returned by
the source. -/
structure ConsensusData where
  level : Int
  summary : String
  timestamp : Option Nat
  agreementScore : Option Nat
  disagreementScore : Option Nat
  totalMessages : Option Nat
deriving DecidableEq

/-- Entry of `this.messageContext`. -/
structure MessageContextEntry where
  message : String
  speaker : String
  timestamp : Nat
deriving DecidableEq

/-- State of a `ConversationAnalytics` instance.  JavaScript `Map`s are
modelled as insertion-ordered association lists with unique keys. -/
structure Analytics where
  consensusHistory : List ConsensusData
  themes : List (String × ThemeEntry)
  insights : List Insight
  sentimentHistory : List SentimentEntry
  wordFrequency : List (String × Nat)
  messageContext : List MessageContextEntry
deriving DecidableEq

/-- Fresh analytics state (the `ConversationAnalytics` constructor). -/
def Analytics.init : Analytics := ⟨[], [], [], [], [], []⟩

/-- Lookup in an insertion-ordered association list (JavaScript `Map.get`). -/
def alGet {β : Type} (m : List (String × β)) (k : String) : Option β :=
  (m.find? (fun e => e.1 == k)).map (fun e => e.2)

/-- Update in an insertion-ordered association list (JavaScript `Map.set`):
an existing key keeps its position, a new key is appended. -/
def alSet {β : Type} (m : List (String × β)) (k : String) (v : β) :
    List (String × β) :=
  if m.any (fun e => e.1 == k) then
    m.map (fun e => if e.1 == k then (k, v) else e)
  else
    m ++ [(k, v)]

/-! ### Sentiment, insights and word frequency -/

/-- Positive keyword list of `analyzeSentiment`. -/
def positiveWords : List String :=
  ["agree", "good", "excellent", "brilliant", "insightful", "valuable",
   "important", "helpful"]

/-- Negative keyword list of `analyzeSentiment`. -/
def negativeWords : List String :=
  ["disagree", "wrong", "flawed", "problematic", "difficult", "challenging"]

/-- Sentiment heuristic: one point per positive keyword present in the
lowercased text, minus one per negative keyword present; sign of the total
decides the class. -/
def analyzeSentiment (text : String) : Sentiment :=
  let lowerText := jsToLower text
  let s1 : Int :=
    positiveWords.foldl
      (fun sc w => if jsIncludes lowerText w then sc + 1 else sc) 0
  let score : Int :=
    negativeWords.foldl
      (fun sc w => if jsIncludes lowerText w then sc - 1 else sc) s1
  if 0 < score then Sentiment.positive
  else if score < 0 then Sentiment.negative
  else Sentiment.neutral

/-- Insight trigger table of `extractInsights`: each case-insensitive regex is
an alternation of literal phrases, i.e. a substring test. -/
def insightPatterns : List (List String × String) :=
  [(["therefore", "thus", "hence", "consequently"], "conclusion"),
   (["however", "but", "although", "nevertheless"], "contrast"),
   (["perhaps", "maybe", "possibly", "might"], "speculation"),
   (["evidence", "proof", "demonstrates", "shows"], "evidence"),
   (["question", "wonder", "curious", "unclear"], "inquiry"),
   (["agree", "consensus", "common ground", "shared"], "agreement"),
   (["disagree", "differ", "oppose", "contrary"], "disagreement"),
   (["build", "expand", "develop", "extend"], "development")]

/-- Insight extraction: every trigger whose pattern matches anywhere in the
text yields one tag holding a 200-character excerpt. -/
def extractInsights (text : String) (ts : Nat) : List Insight :=
  insightPatterns.filterMap (fun pt =>
    if pt.1.any (fun w => jsIncludes (jsToLower text) w) then
      some ⟨pt.2, jsTake 200 text ++ "...", ts⟩
    else none)

/-- Stop-word set of `updateWordFrequency`, transcribed from the source. -/
def stopWords : List String :=
  ["the", "a", "an", "and", "or", "but", "in", "on", "at", "to", "for", "of",
   "with", "by", "nor", "yet", "so", "as", "if", "than", "then", "else",
   "while", "until", "unless",
   "is", "are", "was", "were", "be", "been", "being", "have", "has", "had",
   "do", "does", "did", "will", "would", "could", "should", "may", "might",
   "must", "shall", "can", "cannot", "am", "going", "get", "got", "getting",
   "gets", "go", "goes", "went", "gone",
   "i", "you", "he", "she", "it", "we", "they", "me", "him", "her", "us",
   "them", "my", "your", "his", "hers", "its", "our", "ours", "their",
   "theirs", "mine", "yours", "myself", "yourself", "himself", "herself",
   "itself", "ourselves", "yourselves", "themselves",
   "this", "that", "these", "those", "here", "there", "where", "when", "why",
   "how", "what", "which", "who", "whom", "whose", "whatever", "whoever",
   "whichever", "whenever", "wherever", "however", "whether",
   "about", "above", "across", "after", "against", "along", "among", "around",
   "before", "behind", "below", "beneath", "beside", "besides", "between",
   "beyond", "during", "except", "from", "inside", "into", "like", "near",
   "off", "onto", "over", "since", "through", "toward", "towards", "under",
   "upon", "within", "without", "underneath", "alongside", "throughout",
   "concerning", "regarding", "despite", "according", "including",
   "excluding",
   "too", "very", "quite", "rather", "really", "truly", "actually",
   "certainly", "definitely", "probably", "possibly", "perhaps", "maybe",
   "likely", "unlikely", "clearly", "obviously", "apparently", "seemingly",
   "presumably", "supposedly", "allegedly", "reportedly", "just", "now",
   "only", "also", "back", "even", "still", "yet", "already", "again",
   "once", "twice", "always", "never", "often", "sometimes", "usually",
   "frequently", "rarely", "hardly", "barely", "nearly", "almost", "quite",
   "enough", "much", "many", "more", "most", "less", "least", "few",
   "several", "some", "any", "each", "every", "all", "both", "either",
   "neither", "another", "other", "others", "such", "same", "different",
   "similar", "various", "certain", "particular", "specific", "general",
   "way", "well", "know", "make", "see", "come", "take", "use", "work",
   "say", "think", "look", "want", "need", "seem", "become", "feel", "find",
   "give", "tell", "ask", "try", "help", "show", "play", "move", "live",
   "believe", "hold", "bring", "happen", "write", "provide", "sit", "stand",
   "lose", "add", "hear", "meet", "include", "continue", "set", "learn",
   "change", "lead", "understand", "watch", "follow", "stop", "create",
   "speak", "read", "allow", "run", "walk", "talk", "turn", "start", "call",
   "keep",
   "thing", "things", "something", "anything", "nothing", "everything",
   "someone", "anyone", "everyone", "nobody", "somebody", "anybody",
   "everybody", "somewhere", "anywhere", "everywhere", "nowhere", "somehow",
   "anyhow", "somewhat", "therefore", "however", "moreover", "furthermore",
   "nevertheless", "nonetheless", "meanwhile", "otherwise", "instead",
   "besides", "indeed", "although", "though", "because", "since", "given",
   "considering", "despite", "regardless", "concerning", "regarding"]

/-- Splits a character list on runs of whitespace (JavaScript
`split(/\s+/)` up to empty fragments, which the subsequent length filter
discards in both the source and the model). -/
def splitWsAux : List Char → List Char → List (List Char)
  | [], acc => [acc.reverse]
  | c :: cs, acc =>
    if jsIsSpace c then acc.reverse :: splitWsAux cs []
    else splitWsAux cs (c :: acc)

/-- Tokenisation of `updateWordFrequency`: lowercase, replace characters
outside `\w` and `\s` by spaces, split on whitespace, keep tokens longer than
3 characters that are neither stop words nor purely numeric. -/
def jsWords (message : String) : List String :=
  let cleansed := (jsToLower message).data.map
    (fun c => if jsIsWordChar c || jsIsSpace c then c else ' ')
  ((splitWsAux cleansed []).map (fun l => (⟨l⟩ : String))).filter
    (fun w => 3 < w.length && !(stopWords.contains w)
      && !(w.data.all Char.isDigit))

/-- Word-frequency update: increments the count of every surviving token. -/
def updateWordFrequency (freq : List (String × Nat)) (message : String) :
    List (String × Nat) :=
  (jsWords message).foldl
    (fun m w => alSet m w ((alGet m w).getD 0 + 1)) freq

/-! ### Unique-idea registry -/

/-- Type-specific phrase table of `generateIdeaSummary`. -/
def typeDescriptions : List (String × String) :=
  [("concept", "This concept has been explored"),
   ("argument", "This argument has been developed"),
   ("definition", "This definition has been discussed"),
   ("thought_experiment", "This thought experiment has been considered"),
   ("insight", "This insight has emerged"),
   ("framework", "This framework has been applied"),
   ("paradox", "This paradox has been examined"),
   ("connection", "This connection has been drawn"),
   ("question", "This question has been raised"),
   ("key_concept", "This key concept has appeared")]

/-- Running summary regenerated for a recurring idea. -/
def generateIdeaSummary (idea : Idea) (contexts : List (String × Nat)) :
    String :=
  if contexts.length ≤ 1 then idea.text
  else
    let description :=
      ((alGet typeDescriptions idea.type).getD "This idea has been mentioned")
    description ++ " " ++ toString contexts.length ++
      " times in the discussion: \"" ++ idea.text ++ "\""

/-- Registry absorption (`updateUniqueIdeas`): keys combine the idea type with
the first 50 characters of the lowercased text; recurrences bump the count,
accumulate strength, record a 200-character context snippet and, beyond the
first occurrence, regenerate the running summary. -/
def updateUniqueIdeas (themes : List (String × ThemeEntry))
    (ideas : List Idea) (messageContext : String) (ts : Nat) :
    List (String × ThemeEntry) :=
  ideas.foldl (fun m idea =>
    let ideaKey := idea.type ++ ":" ++ jsTake 50 (jsToLower idea.text)
    let existing := (alGet m ideaKey).getD
      ⟨0, 0, idea.text, idea.type, [], idea.text, ts⟩
    let e1 := { existing with
      count := existing.count + 1,
      totalStrength := existing.totalStrength + idea.strength }
    let e2 :=
      if 0 < messageContext.length then
        let e := { e1 with
          contexts := e1.contexts ++ [(jsTake 200 messageContext, ts)] }
        if 1 < e.count then
          { e with summary := generateIdeaSummary idea e.contexts }
        else e
      else e1
    alSet m ideaKey e2) themes

/-! ### Message ingestion -/

/-- Analysis bundle returned by `analyzeMessage`. -/
structure Analysis where
  timestamp : Nat
  speaker : String
  length : Nat
  themes : List Idea
  insights : List Insight
  sentiment : Sentiment
deriving DecidableEq

/-- Message ingestion (`analyzeMessage`): extracts ideas and insights,
classifies sentiment, and updates the registry, word frequency, message
context, insight log and sentiment history.  `extract` is the deterministic
idea-extraction function (`extractThemes` in the source). -/
def analyzeMessage (extract : String → List Idea) (a : Analytics)
    (message : String) (speaker : String) (ts : Nat) : Analytics × Analysis :=
  let themes := extract message
  let insights := extractInsights message ts
  let sentiment := analyzeSentiment message
  let analysis : Analysis := ⟨ts, speaker, message.length, themes, insights,
    sentiment⟩
  ({ a with
      themes := updateUniqueIdeas a.themes themes message ts,
      wordFrequency := updateWordFrequency a.wordFrequency message,
      messageContext := a.messageContext ++ [⟨message, speaker, ts⟩],
      insights := a.insights ++ insights,
      sentimentHistory := a.sentimentHistory ++ [⟨ts, speaker, sentiment⟩] },
   analysis)

/-! ### Consensus scorer -/

/-- Conversation message as stored in a session history: speaker label
(`"Human"` marks the moderator), content and creation timestamp. -/
structure Message where
  speaker : String
  content : String
  timestamp : Nat
deriving DecidableEq

/-- Agreement indicator phrases of `calculateConsensus`. -/
def agreementIndicators : List String :=
  ["agree", "yes", "exactly", "precisely", "indeed", "absolutely",
   "build on", "expand", "similar", "likewise", "same", "shared"]

/-- Disagreement indicator phrases of `calculateConsensus`. -/
def disagreementIndicators : List String :=
  ["disagree", "no", "however", "but", "different", "contrary",
   "oppose", "challenge", "question", "doubt"]

/-- JavaScript `Math.round` on the (nonnegative) consensus level: round half
away from zero, i.e. toward positive infinity here. -/
def jsRound (q : ℚ) : Int := (q + 1 / 2).floor

/-- Number of indicator phrases from `inds` present in the lowercased content
of `m`. -/
def indicatorHits (inds : List String) (m : Message) : Nat :=
  (inds.filter (fun ind => jsIncludes (jsToLower m.content) ind)).length

/-- Consensus scoring (`calculateConsensus`).  Histories shorter than 4
messages yield the sentinel sample and leave the state untouched; otherwise
the last 6 messages are scanned, non-human ones contribute indicator hits,
the level is the clamped affine combination of net hits, and the computed
sample is appended to `consensusHistory` before being returned. -/
def calculateConsensus (a : Analytics) (conversationHistory : List Message)
    (ts : Nat) : Analytics × ConsensusData :=
  if conversationHistory.length < 4 then
    (a, ⟨0, "Not enough messages for consensus analysis",
      none, none, none, none⟩)
  else
    let recentMessages :=
      conversationHistory.drop (conversationHistory.length - 6)
    let msgs := recentMessages.filter (fun m => !(m.speaker == "Human"))
    let agreementScore :=
      msgs.foldl (fun n m => n + indicatorHits agreementIndicators m) 0
    let disagreementScore :=
      msgs.foldl (fun n m => n + indicatorHits disagreementIndicators m) 0
    let totalMessages := msgs.length
    let consensusLevel : ℚ :=
      if 0 < totalMessages then
        max 0 (min 100
          (((agreementScore : ℚ) - (disagreementScore : ℚ)) /
            (totalMessages : ℚ) * 50 + 50))
      else 0
    let summary :=
      if 80 ≤ consensusLevel then "Strong consensus emerging"
      else if 60 ≤ consensusLevel then "Growing agreement"
      else if 40 ≤ consensusLevel then "Mixed perspectives"
      else if 20 ≤ consensusLevel then "Some disagreement"
      else "Significant differences"
    let consensusData : ConsensusData :=
      ⟨jsRound consensusLevel, summary, some ts, some agreementScore,
        some disagreementScore, some totalMessages⟩
    ({ a with consensusHistory := a.consensusHistory ++ [consensusData] },
     consensusData)

/-! ### Snapshot queries -/

/-- Stable insertion sort: `before x y = true` means `x` must be placed
strictly before `y`; elements comparing equal keep their original order.
This reproduces the (stable) JavaScript `Array.sort`. -/
def insertStable {α : Type} (before : α → α → Bool) (x : α) :
    List α → List α
  | [] => [x]
  | y :: ys =>
    if before y x then y :: insertStable before x ys else x :: y :: ys

/-- Stable sort driver for `insertStable`. -/
def sortStable {α : Type} (before : α → α → Bool) : List α → List α
  | [] => []
  | x :: xs => insertStable before x (sortStable before xs)

/-- Element of `getTopThemes` output. -/
structure TopTheme where
  name : String
  type : String
  averageStrength : ℚ
  count : Nat
  summary : String
  firstIntroduced : Option Nat
deriving DecidableEq

/-- Comparator of `getTopThemes`: count descending, then mean strength
descending. -/
def topThemeBefore (x y : TopTheme) : Bool :=
  decide (y.count < x.count) ||
    (x.count == y.count && decide (y.averageStrength < x.averageStrength))

/-- Ranked idea summary (`getTopThemes`): registry entries are mapped to the
output shape (with the legacy fallback for entries whose text or type is
falsy), sorted stably and truncated. -/
def getTopThemes (a : Analytics) (limit : Nat) : List TopTheme :=
  let mapped := a.themes.map (fun e =>
    let d := e.2
    if d.text != "" && d.type != "" then
      (⟨d.text, d.type, d.totalStrength / (d.count : ℚ), d.count, d.summary,
        some d.firstIntroduced⟩ : TopTheme)
    else
      ⟨e.1, "legacy_theme", d.totalStrength / (d.count : ℚ), d.count,
        (if d.summary != "" then d.summary else e.1), none⟩)
  (sortStable topThemeBefore mapped).take limit

/-- Element of `getWordMap` output. -/
structure WordMapEntry where
  word : String
  frequency : Nat
  size : String
deriving DecidableEq

/-- Discrete size tier of a word-cloud entry. -/
def wordSize (frequency : Nat) : String :=
  if 10 ≤ frequency then "xl"
  else if 7 ≤ frequency then "lg"
  else if 5 ≤ frequency then "md"
  else if 3 ≤ frequency then "sm"
  else "xs"

/-- Word cloud (`getWordMap`): words with count at least 2, sorted by count
descending (stable), truncated, tagged with size tiers. -/
def getWordMap (a : Analytics) (limit : Nat) : List WordMapEntry :=
  let sortedWords := (sortStable (fun x y => decide (y.2 < x.2))
    (a.wordFrequency.filter (fun e => 2 ≤ e.2))).take limit
  sortedWords.map (fun e => ⟨e.1, e.2, wordSize e.2⟩)

/-- Consensus graph (`getConsensusGraph`): the 20 most recent samples. -/
def getConsensusGraph (a : Analytics) : List ConsensusData :=
  a.consensusHistory.drop (a.consensusHistory.length - 20)

/-- Sentiment tallies. -/
structure SentimentDistribution where
  positive : Nat
  neutral : Nat
  negative : Nat
deriving DecidableEq

/-- Distribution of recorded sentiments (`getSentimentDistribution`). -/
def getSentimentDistribution (a : Analytics) : SentimentDistribution :=
  a.sentimentHistory.foldl (fun d e =>
    match e.sentiment with
    | Sentiment.positive => { d with positive := d.positive + 1 }
    | Sentiment.neutral => { d with neutral := d.neutral + 1 }
    | Sentiment.negative => { d with negative := d.negative + 1 })
    ⟨0, 0, 0⟩

/-- Totals block of the exported snapshot. -/
structure AnalyticsSummary where
  totalThemes : Nat
  totalWords : Nat
  consensusPoints : Nat
deriving DecidableEq

/-- Exported analytics snapshot. -/
structure AnalyticsExport where
  themes : List TopTheme
  wordMap : List WordMapEntry
  consensusHistory : List ConsensusData
  sentimentDistribution : SentimentDistribution
  summary : AnalyticsSummary
deriving DecidableEq

/-- Snapshot export (`exportAnalytics`): a pure read of the analytics state. -/
def exportAnalytics (a : Analytics) : AnalyticsExport :=
  ⟨getTopThemes a 10, getWordMap a 30, getConsensusGraph a,
    getSentimentDistribution a,
    ⟨a.themes.length, a.wordFrequency.length, a.consensusHistory.length⟩⟩

/-! ## Conversation memory (`src/utils/memory.js`) -/

/-- Message recording (`ConversationMemory.addMessage`): the content is
analysed by the conversation's analytics instance and the message is appended
to the history. -/
def addMessage (extract : String → List Idea) (a : Analytics)
    (history : List Message) (speaker content : String) (ts : Nat) :
    Analytics × List Message :=
  let ingest := analyzeMessage extract a content speaker ts
  (ingest.1, history ++ [⟨speaker, content, ts⟩])

/-- Live recording of a message sequence: each message flows through
`addMessage` in order, starting from a fresh analytics instance and an empty
history. -/
def liveSession (extract : String → List Idea) (msgs : List Message) :
    Analytics × List Message :=
  msgs.foldl
    (fun st m => addMessage extract st.1 st.2 m.speaker m.content m.timestamp)
    (Analytics.init, [])

/-- Replay reconstruction used by `loadConversation`: a fresh analytics
instance re-analyses every stored history message whose content and speaker
are truthy (nonempty). -/
def replayAnalytics (extract : String → List Idea) (history : List Message) :
    Analytics :=
  history.foldl (fun a m =>
    if m.content != "" && m.speaker != "" then
      (analyzeMessage extract a m.content m.speaker m.timestamp).1
    else a)
    Analytics.init

/-! ## Turn scheduler (`src/web-server.js`) -/

/-- Conversation configuration entry
(`this.conversationConfigs.get(conversationId) || {}`).  Absent fields are
`none`; auto-rounds are enabled unless the field is exactly `false`, and the
moderation-pause threshold falls back to 4 on an absent or falsy value. -/
structure Config where
  autoRounds : Option Bool
  moderationPause : Option Nat
deriving DecidableEq

/-- JavaScript `v || d` on an optional number: absent or zero (falsy) values
fall back to the default. -/
def jsOrNat (v : Option Nat) (d : Nat) : Nat :=
  match v with
  | none => d
  | some n => if n == 0 then d else n

/-- Per-conversation scheduler state: history, the analytics instance, the
consecutive-AI-message counter and the auto-round counter. -/
structure SessionState where
  history : List Message
  analytics : Analytics
  consecutiveAI : Nat
  autoRounds : Nat
deriving DecidableEq

/-- Events emitted to the transport layer, restricted to the payload fields
the verified properties speak about. -/
inductive Event where
  | demoResponse
  | noActiveProviders
  | randomSelection (speakers : List String)
  | aiThinking (provider : String)
  | newMessage (speaker content : String)
  | analyticsUpdate
  | aiError (provider : String)
  | moderationPause (consecutiveMessages threshold : Nat)
  | autoRoundNotification (current max : Nat)
  | autoRoundComplete
deriving DecidableEq

/-- Swap of two positions in a list (the body of the Fisher-Yates loop). -/
def swapIdx {α : Type} (l : List α) (i j : Nat) : List α :=
  match l.get? i, l.get? j with
  | some a, some b => (l.set i b).set j a
  | _, _ => l

/-- Fisher-Yates loop of `shuffleArray`, indexed from `n` down to 1: position
`i` is swapped with position `rand i % (i + 1)`, which ranges over exactly
the values `Math.floor(Math.random() * (i + 1))` can take. -/
def fyLoop {α : Type} (rand : Nat → Nat) : List α → Nat → List α
  | l, 0 => l
  | l, i + 1 => fyLoop rand (swapIdx l (i + 1) (rand (i + 1) % (i + 2))) i

/-- Random shuffle helper (`shuffleArray`). -/
def shuffleArray {α : Type} (rand : Nat → Nat) (l : List α) : List α :=
  fyLoop rand l (l.length - 1)

/-- Speaker of the most recent non-human message, if any
(`history.slice().reverse().find(msg => msg.speaker !== 'Human')`). -/
def lastAISpeaker (history : List Message) : Option String :=
  (history.reverse.find? (fun m => !(m.speaker == "Human"))).map
    (fun m => m.speaker)

/-- Speaker-selection step of `processAIResponses` (providers are identified
by their names): a single active provider always speaks; the very first batch
after the opening message shuffles all active providers; otherwise a random
provider other than the previous speaker leads and the remaining eligible
providers follow in shuffled order, with a shuffle of everyone as the
defensive fallback when no provider is eligible.  Returns the speaking order
together with the emitted random-selection events. -/
def selectProviders (rand : Nat → Nat) (availableProviders : List String)
    (history : List Message) : List String × List Event :=
  if availableProviders.length == 1 then (availableProviders, [])
  else if history.length == 1 then
    let providersToUse := shuffleArray rand availableProviders
    (providersToUse, [Event.randomSelection providersToUse])
  else
    let last := lastAISpeaker history
    let eligibleProviders :=
      availableProviders.filter (fun p => !(some p == last))
    if h : 0 < eligibleProviders.length then
      let primaryChoice := eligibleProviders.get
        ⟨rand 0 % eligibleProviders.length, Nat.mod_lt _ h⟩
      let remainingProviders :=
        eligibleProviders.filter (fun p => !(p == primaryChoice))
      let providersToUse :=
        primaryChoice ::
          shuffleArray (fun i => rand (i + 1)) remainingProviders
      (providersToUse, [Event.randomSelection providersToUse])
    else
      let providersToUse := shuffleArray rand availableProviders
      (providersToUse, [Event.randomSelection providersToUse])

/-- Case-insensitive strip of a leading `label:` (plus trailing whitespace)
from a character list; `none` when the label does not match. -/
def dropLabelCI : List Char → List Char → Option (List Char)
  | [], l => some (l.dropWhile jsIsSpace)
  | _ :: _, [] => none
  | a :: as, b :: bs =>
    if a.toLower == b.toLower then dropLabelCI as bs else none

/-- One anchored case-insensitive replacement `^label:\s*` → empty string. -/
def stripLabelCI (label : String) (s : String) : String :=
  match dropLabelCI (label.data ++ [':']) s.data with
  | some rest => ⟨rest⟩
  | none => s

/-- The final generic pattern `^\w+:\s*` of `cleanResponseText`. -/
def stripWordLabel (s : String) : String :=
  let w := s.data.takeWhile jsIsWordChar
  if w.isEmpty then s
  else
    match s.data.drop w.length with
    | ':' :: r => ⟨r.dropWhile jsIsSpace⟩
    | _ => s

/-- Response cleanup (`cleanResponseText`): sequentially strip the provider's
own label, each known participant label and finally any word label from the
start of the response, then trim. -/
def cleanResponseText (response providerName : String) : String :=
  let labels := [providerName, "Claude", "ChatGPT", "Gemini", "Meta AI",
    "Watsonx", "Grok", "Mistral", "Human"]
  jsTrim (stripWordLabel (labels.foldl (fun r lab => stripLabelCI lab r)
    response))

/-- Result of running the per-provider invocation loop of a batch. -/
structure LoopResult where
  analytics : Analytics
  history : List Message
  events : List Event
deriving DecidableEq

/-- Sequential provider-invocation loop of `processAIResponses`: the k-th
queued provider either produces a response (which is cleaned, recorded through
`addMessage`, announced, and followed by a consensus update) or throws, in
which case the error is caught, reported, and the loop continues with the
remaining providers. -/
def batchLoop (extract : String → List Idea) (outcomes : Nat → Option String)
    (ts : Nat) : List String → Nat → Analytics → List Message → LoopResult
  | [], _, a, h => ⟨a, h, []⟩
  | p :: ps, k, a, h =>
    match outcomes k with
    | some response =>
      let cleanResponse := cleanResponseText response p
      let recorded := addMessage extract a h p cleanResponse ts
      let consensus := calculateConsensus recorded.1 recorded.2 ts
      let rest := batchLoop extract outcomes ts ps (k + 1) consensus.1
        recorded.2
      ⟨rest.analytics, rest.history,
        Event.aiThinking p :: Event.newMessage p cleanResponse ::
          Event.analyticsUpdate :: rest.events⟩
    | none =>
      let rest := batchLoop extract outcomes ts ps (k + 1) a h
      ⟨rest.analytics, rest.history,
        Event.aiThinking p :: Event.aiError p :: rest.events⟩

/-- Result of one `processAIResponses` call: the new session state, the
emitted events, and whether a follow-up automated batch was scheduled
(the `setTimeout` continuation). -/
structure BatchResult where
  state : SessionState
  events : List Event
  scheduled : Bool
deriving DecidableEq

/-- One turn batch (`processAIResponses`): demo-mode and no-active-provider
guards, speaker selection, the sequential invocation loop, the
consecutive-AI-message accounting, the moderation-pause check and the bounded
auto-round continuation. -/
def processAIResponses (extract : String → List Idea) (cfg : Config)
    (registered active : List String) (rand : Nat → Nat)
    (outcomes : Nat → Option String) (ts : Nat) (s : SessionState) :
    BatchResult :=
  if registered.isEmpty then ⟨s, [Event.demoResponse], false⟩
  else
    let availableProviders := registered.filter (fun p => active.contains p)
    if availableProviders.isEmpty then ⟨s, [Event.noActiveProviders], false⟩
    else
      let sel := selectProviders rand availableProviders s.history
      let providersToUse := sel.1
      let loop := batchLoop extract outcomes ts providersToUse 0 s.analytics
        s.history
      let updatedConsecutiveAI := s.consecutiveAI + providersToUse.length
      let moderationPauseThreshold := jsOrNat cfg.moderationPause 4
      let baseEvents := sel.2 ++ loop.events
      if moderationPauseThreshold ≤ updatedConsecutiveAI then
        ⟨⟨loop.history, loop.analytics, updatedConsecutiveAI, s.autoRounds⟩,
          baseEvents ++ [Event.moderationPause updatedConsecutiveAI
            moderationPauseThreshold],
          false⟩
      else if cfg.autoRounds != some false then
        if s.autoRounds < 2 then
          ⟨⟨loop.history, loop.analytics, updatedConsecutiveAI,
              s.autoRounds + 1⟩,
            baseEvents ++ [Event.autoRoundNotification (s.autoRounds + 1) 2],
            true⟩
        else
          ⟨⟨loop.history, loop.analytics, updatedConsecutiveAI,
              s.autoRounds⟩,
            baseEvents ++ [Event.autoRoundComplete], false⟩
      else
        ⟨⟨loop.history, loop.analytics, updatedConsecutiveAI, s.autoRounds⟩,
          baseEvents, false⟩

/-- Detects a moderation-pause event in an event list. -/
def hasModerationPause (events : List Event) : Bool :=
  events.any (fun e =>
    match e with
    | Event.moderationPause _ _ => true
    | _ => false)

/-- Human-message handling up to (but not including) the triggered batch
(the `human-message` socket handler): the message is recorded and announced,
consensus is recomputed, and both the auto-round counter and the
consecutive-AI-message counter are reset. -/
def recordHumanMessage (extract : String → List Idea) (s : SessionState)
    (message : String) (ts : Nat) : SessionState × List Event :=
  let recorded := addMessage extract s.analytics s.history "Human" message ts
  let consensus := calculateConsensus recorded.1 recorded.2 ts
  (⟨recorded.2, consensus.1, 0, 0⟩,
   [Event.newMessage "Human" message, Event.analyticsUpdate])

/-- Complete `human-message` handler: record and reset, then run
`processAIResponses` on the resulting state. -/
def handleHumanMessage (extract : String → List Idea) (cfg : Config)
    (registered active : List String) (rand : Nat → Nat)
    (outcomes : Nat → Option String) (ts : Nat) (s : SessionState)
    (message : String) : BatchResult :=
  let pre := recordHumanMessage extract s message ts
  let r := processAIResponses extract cfg registered active rand outcomes ts
    pre.1
  ⟨r.state, pre.2 ++ r.events, r.scheduled⟩

/-! ### Automated continuation chains

A scheduled continuation (`setTimeout(() => this.processAIResponses(...))`)
re-runs the batch pipeline with no intervening human input.  `chainRun`
iterates batches while the previous one scheduled a successor; per-batch
randomness, provider outcomes and timestamps come from index-dependent
families. -/

/-- State of an automated continuation chain: current session state, whether
a further batch is pending, and how many automatic continuations have been
scheduled so far. -/
structure ChainState where
  st : SessionState
  running : Bool
  schedCount : Nat
deriving DecidableEq

/-- One chain step: if a batch is pending, run it and record whether it
scheduled a successor. -/
def chainStep (extract : String → List Idea) (cfg : Config)
    (registered active : List String) (randF : Nat → Nat → Nat)
    (outF : Nat → Nat → Option String) (tsF : Nat → Nat) (i : Nat)
    (c : ChainState) : ChainState :=
  if c.running then
    let r := processAIResponses extract cfg registered active (randF i)
      (outF i) (tsF i) c.st
    ⟨r.state, r.scheduled,
      c.schedCount + (if r.scheduled then 1 else 0)⟩
  else c

/-- Chain of up to `n` batches starting from `s` (the first batch being the
human- or moderator-triggered one, subsequent ones the scheduled automatic
continuations). -/
def chainRun (extract : String → List Idea) (cfg : Config)
    (registered active : List String) (randF : Nat → Nat → Nat)
    (outF : Nat → Nat → Option String) (tsF : Nat → Nat) (s : SessionState) :
    Nat → ChainState
  | 0 => ⟨s, true, 0⟩
  | n + 1 => chainStep extract cfg registered active randF outF tsF n
      (chainRun extract cfg registered active randF outF tsF s n)

/-! ## General lemmas about the scheduler primitives -/

theorem mem_of_mem_swapIdx {α : Type} {l : List α} {i j : Nat} {x : α}
    (h : x ∈ swapIdx l i j) : x ∈ l := by
  unfold swapIdx at h
  cases hi : l.get? i with
  | none => rw [hi] at h; exact h
  | some a =>
    cases hj : l.get? j with
    | none => rw [hi, hj] at h; exact h
    | some b =>
      rw [hi, hj] at h
      rcases List.mem_or_eq_of_mem_set h with h1 | h1
      · rcases List.mem_or_eq_of_mem_set h1 with h2 | h2
        · exact h2
        · exact h2 ▸ List.get?_mem hj
      · exact h1 ▸ List.get?_mem hi

theorem mem_of_mem_fyLoop {α : Type} (rand : Nat → Nat) :
    ∀ (n : Nat) (l : List α) (x : α), x ∈ fyLoop rand l n → x ∈ l := by
  intro n
  induction n with
  | zero => intro l x h; exact h
  | succ i ih =>
    intro l x h
    exact mem_of_mem_swapIdx (ih _ x h)

theorem mem_of_mem_shuffleArray {α : Type} {rand : Nat → Nat} {l : List α}
    {x : α} (h : x ∈ shuffleArray rand l) : x ∈ l :=
  mem_of_mem_fyLoop rand _ l x h

theorem length_le_one_of_forall_eq {l : List String} {a : String}
    (hnd : l.Nodup) (h : ∀ x ∈ l, x = a) : l.length ≤ 1 := by
  cases l with
  | nil => simp
  | cons b bs =>
    cases bs with
    | nil => simp
    | cons c cs =>
      exfalso
      have hb : b = a := h b (by simp)
      have hc : c = a := h c (by simp)
      have : b ≠ c := by
        intro hbc
        exact (List.nodup_cons.mp hnd).1 (hbc ▸ List.mem_cons_self c cs)
      exact this (hb.trans hc.symm)

/-! ## Claim C1: no immediate repeat -/

/-- C1: in every batch computed after a conversation's first automated batch,
when more than one (distinctly named) provider is active, the first provider
selected is not the speaker of the most recent non-human message, and that
previous speaker appears nowhere in the batch's speaking order. -/
theorem c1_no_immediate_repeat (rand : Nat → Nat)
    (availableProviders : List String) (history : List Message) (s : String)
    (hnd : availableProviders.Nodup) (hlen : 1 < availableProviders.length)
    (hlast : lastAISpeaker history = some s) (hfirst : history.length ≠ 1) :
    (selectProviders rand availableProviders history).1.head? ≠ some s ∧
      s ∉ (selectProviders rand availableProviders history).1 := by
  have h1 : (availableProviders.length == 1) = false := by
    simp only [beq_eq_false_iff_ne, ne_eq]
    omega
  have h2 : (history.length == 1) = false := by
    simpa only [beq_eq_false_iff_ne, ne_eq] using hfirst
  have hmemne : ∀ x ∈ availableProviders.filter
      (fun p => !(some p == lastAISpeaker history)), x ≠ s := by
    intro x hx hxs
    have := List.of_mem_filter hx
    rw [hlast] at this
    simp [hxs] at this
  have hpos : 0 < (availableProviders.filter
      (fun p => !(some p == lastAISpeaker history))).length := by
    by_contra hng
    push_neg at hng
    have hnil : availableProviders.filter
        (fun p => !(some p == lastAISpeaker history)) = [] :=
      List.eq_nil_of_length_eq_zero (Nat.le_zero.mp hng)
    have hall : ∀ x ∈ availableProviders, x = s := by
      intro x hx
      by_contra hxs
      have hxe : x ∈ availableProviders.filter
          (fun p => !(some p == lastAISpeaker history)) := by
        apply List.mem_filter.mpr
        refine ⟨hx, ?_⟩
        rw [hlast]
        simpa using hxs
      rw [hnil] at hxe
      exact absurd hxe (List.not_mem_nil x)
    have := length_le_one_of_forall_eq hnd hall
    omega
  have hnotin : s ∉ (selectProviders rand availableProviders history).1 := by
    simp only [selectProviders, h1, h2, Bool.false_eq_true, if_false,
      dif_pos hpos]
    intro hmem
    rcases List.mem_cons.mp hmem with hhd | htl
    · exact hmemne _ (List.get_mem _ _ _) hhd.symm
    · have hrem := mem_of_mem_shuffleArray htl
      exact hmemne s (List.mem_of_mem_filter hrem) rfl
  refine ⟨?_, hnotin⟩
  intro hh
  exact hnotin (List.mem_of_mem_head? hh)

/-- C1 witness: a concrete two-provider conversation in which provider `A`
spoke last; the computed batch is `["B"]`, which excludes `A`. -/
theorem c1_no_immediate_repeat_witness :
    (selectProviders (fun _ => 0) ["A", "B"]
        [⟨"Human", "q", 0⟩, ⟨"A", "x", 1⟩]).1.head? ≠ some "A" ∧
      "A" ∉ (selectProviders (fun _ => 0) ["A", "B"]
        [⟨"Human", "q", 0⟩, ⟨"A", "x", 1⟩]).1 :=
  c1_no_immediate_repeat (fun _ => 0) ["A", "B"]
    [⟨"Human", "q", 0⟩, ⟨"A", "x", 1⟩] "A" (by decide) (by decide)
    (by decide) (by decide)

/-! ## Claim C2: replay reconstruction of analytics -/

/-- Instantiation of the idea-extraction parameter used for concrete
evaluations.  On every input appearing in those evaluations (the empty string
and short lowercase texts) the source extractor also produces no candidates:
its patterns require trigger phrases with capture spans of at least 10
characters, and its key-concept heuristics require capitalised or
suffix-bearing tokens longer than 4 characters. -/
def trivialExtraction : String → List Idea := fun _ => []

theorem liveFold_history (extract : String → List Idea) :
    ∀ (msgs : List Message) (a : Analytics) (h : List Message),
      (msgs.foldl (fun st m =>
        addMessage extract st.1 st.2 m.speaker m.content m.timestamp)
        (a, h)).2 = h ++ msgs := by
  intro msgs
  induction msgs with
  | nil => intro a h; simp
  | cons m ms ih =>
    intro a h
    rw [List.foldl_cons]
    show (ms.foldl _ (addMessage extract a h m.speaker m.content
      m.timestamp)).2 = _
    rw [show addMessage extract a h m.speaker m.content m.timestamp =
      ((analyzeMessage extract a m.content m.speaker m.timestamp).1,
        h ++ [m]) from rfl]
    rw [ih]
    simp

theorem replayFold_eq_liveFold (extract : String → List Idea) :
    ∀ (msgs : List Message) (a : Analytics) (h : List Message),
      (∀ m ∈ msgs, m.content ≠ "" ∧ m.speaker ≠ "") →
      (msgs.foldl (fun acc m =>
          if m.content != "" && m.speaker != "" then
            (analyzeMessage extract acc m.content m.speaker m.timestamp).1
          else acc) a) =
        (msgs.foldl (fun st m =>
          addMessage extract st.1 st.2 m.speaker m.content m.timestamp)
          (a, h)).1 := by
  intro msgs
  induction msgs with
  | nil => intro a h _; rfl
  | cons m ms ih =>
    intro a h hne
    rw [List.foldl_cons, List.foldl_cons]
    have hc := hne m (List.mem_cons_self m ms)
    rw [if_pos (by simp [hc.1, hc.2])]
    exact ih _ _ (fun x hx => hne x (List.mem_cons_of_mem m hx))

/-- C2 counterexample: a single human message with empty content is analysed
live (its neutral sentiment is recorded) but skipped by the load-path replay,
so the reconstructed snapshot differs from the live one. -/
theorem c2_replay_equivalence_counterexample :
    exportAnalytics (replayAnalytics trivialExtraction
        (liveSession trivialExtraction [⟨"Human", "", 0⟩]).2) ≠
      exportAnalytics (liveSession trivialExtraction [⟨"Human", "", 0⟩]).1 :=
  by decide

/-- C2 as amended: for every deterministic extraction function and every
message sequence in which each message has nonempty (truthy) content and
speaker, replaying the live-recorded history through a fresh analytics
instance — as `loadConversation` does — reconstructs a snapshot equal to the
live one. -/
theorem c2_replay_equivalence (extract : String → List Idea)
    (msgs : List Message)
    (hne : ∀ m ∈ msgs, m.content ≠ "" ∧ m.speaker ≠ "") :
    exportAnalytics (replayAnalytics extract (liveSession extract msgs).2) =
      exportAnalytics ((liveSession extract msgs).1) := by
  unfold liveSession replayAnalytics
  rw [liveFold_history extract msgs Analytics.init []]
  rw [List.nil_append]
  rw [replayFold_eq_liveFold extract msgs Analytics.init [] hne]

/-- C2 witness: replay equivalence instantiated on a concrete two-message
conversation. -/
theorem c2_replay_equivalence_witness :
    exportAnalytics (replayAnalytics trivialExtraction
        (liveSession trivialExtraction
          [⟨"Human", "hi there", 0⟩, ⟨"A", "I agree", 1⟩]).2) =
      exportAnalytics ((liveSession trivialExtraction
        [⟨"Human", "hi there", 0⟩, ⟨"A", "I agree", 1⟩]).1) :=
  c2_replay_equivalence trivialExtraction
    [⟨"Human", "hi there", 0⟩, ⟨"A", "I agree", 1⟩] (by decide)

/-! ## Claims C8, C9: consensus scorer -/

/-- C8: on a history of fewer than 4 messages the consensus scorer returns
the sentinel sample — level 0 with the not-enough-messages label — rather
than failing, regardless of message content. -/
theorem c8_consensus_floor (a : Analytics) (history : List Message) (ts : Nat)
    (h : history.length < 4) :
    (calculateConsensus a history ts).2.level = 0 ∧
      (calculateConsensus a history ts).2.summary =
        "Not enough messages for consensus analysis" := by
  unfold calculateConsensus
  rw [if_pos h]
  exact ⟨rfl, rfl⟩

/-- C8 witness: the sentinel on an empty history. -/
theorem c8_consensus_floor_witness :
    (calculateConsensus Analytics.init [] 0).2.level = 0 ∧
      (calculateConsensus Analytics.init [] 0).2.summary =
        "Not enough messages for consensus analysis" :=
  c8_consensus_floor Analytics.init [] 0 (by decide)

/-- C9 counterexample: a consensus call on a history of fewer than 4 messages
returns the sentinel without appending anything, so the history list does not
grow by one on that call. -/
theorem c9_consensus_append_counterexample :
    ¬ ((calculateConsensus Analytics.init [] 0).1.consensusHistory.length =
        Analytics.init.consensusHistory.length + 1) := by
  decide

/-- C9 as amended: a consensus call on a history of at least 4 messages
appends exactly one sample to the consensus history, while a call on a
shorter history leaves the analytics state unchanged (in particular, no
sample is appended). -/
theorem c9_consensus_append (a : Analytics) (history : List Message)
    (ts : Nat) :
    (4 ≤ history.length →
      (calculateConsensus a history ts).1.consensusHistory.length =
        a.consensusHistory.length + 1) ∧
    (history.length < 4 → (calculateConsensus a history ts).1 = a) := by
  constructor
  · intro h4
    unfold calculateConsensus
    rw [if_neg (by omega)]
    simp
  · intro h
    unfold calculateConsensus
    rw [if_pos h]

/-- C9 witness: the amended statement instantiated on a four-message
history. -/
theorem c9_consensus_append_witness :
    (4 ≤ ([⟨"Human", "a", 0⟩, ⟨"A", "b", 1⟩, ⟨"B", "c", 2⟩,
        ⟨"A", "d", 3⟩] : List Message).length →
      (calculateConsensus Analytics.init
        [⟨"Human", "a", 0⟩, ⟨"A", "b", 1⟩, ⟨"B", "c", 2⟩, ⟨"A", "d", 3⟩]
        9).1.consensusHistory.length =
        Analytics.init.consensusHistory.length + 1) ∧
    (([⟨"Human", "a", 0⟩, ⟨"A", "b", 1⟩, ⟨"B", "c", 2⟩,
        ⟨"A", "d", 3⟩] : List Message).length < 4 →
      (calculateConsensus Analytics.init
        [⟨"Human", "a", 0⟩, ⟨"A", "b", 1⟩, ⟨"B", "c", 2⟩, ⟨"A", "d", 3⟩]
        9).1 = Analytics.init) :=
  c9_consensus_append Analytics.init
    [⟨"Human", "a", 0⟩, ⟨"A", "b", 1⟩, ⟨"B", "c", 2⟩, ⟨"A", "d", 3⟩] 9

/-! ## Claim C10: "disagree" cancels itself in the sentiment heuristic -/

/-- C10: a text whose lowercase form contains "disagree" but no other
positive keyword (beyond the "agree" occurrence inside "disagree" itself) and
no other negative keyword is classified neutral: the substring "agree" inside
"disagree" contributes one positive hit, cancelling the one negative hit. -/
theorem c10_disagree_is_neutral (text : String)
    (hd : jsIncludes (jsToLower text) "disagree" = true)
    (hp : ∀ w ∈ ["good", "excellent", "brilliant", "insightful", "valuable",
      "important", "helpful"], jsIncludes (jsToLower text) w = false)
    (hn : ∀ w ∈ ["wrong", "flawed", "problematic", "difficult",
      "challenging"], jsIncludes (jsToLower text) w = false) :
    analyzeSentiment text = Sentiment.neutral := by
  have ha : jsIncludes (jsToLower text) "agree" = true :=
    jsIncludes_trans (by decide) hd
  have hgood := hp "good" (by simp)
  have hexc := hp "excellent" (by simp)
  have hbri := hp "brilliant" (by simp)
  have hins := hp "insightful" (by simp)
  have hval := hp "valuable" (by simp)
  have himp := hp "important" (by simp)
  have hhel := hp "helpful" (by simp)
  have hwro := hn "wrong" (by simp)
  have hfla := hn "flawed" (by simp)
  have hpro := hn "problematic" (by simp)
  have hdif := hn "difficult" (by simp)
  have hcha := hn "challenging" (by simp)
  simp only [analyzeSentiment, positiveWords, negativeWords, List.foldl_cons,
    List.foldl_nil, ha, hd, hgood, hexc, hbri, hins, hval, himp, hhel, hwro,
    hfla, hpro, hdif, hcha, if_true, if_false]
  norm_num

/-- C10 witness: the text "they disagree" is classified neutral. -/
theorem c10_disagree_is_neutral_witness :
    analyzeSentiment "they disagree" = Sentiment.neutral :=
  c10_disagree_is_neutral "they disagree" (by decide)
    (by intro w hw; fin_cases hw <;> decide)
    (by intro w hw; fin_cases hw <;> decide)

/-! ## Structural lemmas about the batch pipeline -/

theorem batchLoop_history_spec (extract : String → List Idea)
    (outcomes : Nat → Option String) (ts : Nat) :
    ∀ (order : List String) (k : Nat) (a : Analytics) (h : List Message),
      (batchLoop extract outcomes ts order k a h).history =
        h ++ (List.enumFrom k order).filterMap (fun kp =>
          (outcomes kp.1).map (fun response =>
            (⟨kp.2, cleanResponseText response kp.2, ts⟩ : Message))) := by
  intro order
  induction order with
  | nil => intro k a h; simp [batchLoop, List.enumFrom]
  | cons p ps ih =>
    intro k a h
    cases hk : outcomes k with
    | some response =>
      show (batchLoop extract outcomes ts (p :: ps) k a h).history = _
      simp only [batchLoop, hk]
      rw [ih]
      simp [addMessage, List.enumFrom, hk, List.filterMap_cons]
    | none =>
      show (batchLoop extract outcomes ts (p :: ps) k a h).history = _
      simp only [batchLoop, hk]
      rw [ih]
      simp [List.enumFrom, hk, List.filterMap_cons]

theorem batchLoop_thinking_spec (extract : String → List Idea)
    (outcomes : Nat → Option String) (ts : Nat) :
    ∀ (order : List String) (k : Nat) (a : Analytics) (h : List Message)
      (p : String), p ∈ order →
      Event.aiThinking p ∈ (batchLoop extract outcomes ts order k a h).events := by
  intro order
  induction order with
  | nil => intro k a h p hp; exact absurd hp (List.not_mem_nil p)
  | cons q ps ih =>
    intro k a h p hp
    rcases List.mem_cons.mp hp with rfl | hp2
    · cases hk : outcomes k <;> simp only [batchLoop, hk] <;> simp
    · cases hk : outcomes k <;> simp only [batchLoop, hk] <;>
        simp only [List.mem_cons] <;>
        exact Or.inr (Or.inr (by first
          | exact Or.inr (ih _ _ _ p hp2)
          | exact ih _ _ _ p hp2))

theorem batchLoop_error_spec (extract : String → List Idea)
    (outcomes : Nat → Option String) (ts : Nat) :
    ∀ (order : List String) (k : Nat) (a : Analytics) (h : List Message)
      (i : Nat) (p : String), (i, p) ∈ List.enumFrom k order →
      outcomes i = none →
      Event.aiError p ∈ (batchLoop extract outcomes ts order k a h).events := by
  intro order
  induction order with
  | nil => intro k a h i p hp _; simp [List.enumFrom] at hp
  | cons q ps ih =>
    intro k a h i p hp hnone
    rw [show List.enumFrom k (q :: ps) = (k, q) :: List.enumFrom (k + 1) ps
      from rfl] at hp
    rcases List.mem_cons.mp hp with heq | hp2
    · injection heq with h1 h2
      subst h1; subst h2
      simp only [batchLoop, hnone]
      simp
    · cases hk : outcomes k <;> simp only [batchLoop, hk] <;>
        simp only [List.mem_cons] <;>
        exact Or.inr (Or.inr (by first
          | exact Or.inr (ih _ _ _ i p hp2 hnone)
          | exact ih _ _ _ i p hp2 hnone))

theorem batchLoop_length_all_success (extract : String → List Idea)
    (outcomes : Nat → Option String) (ts : Nat) :
    ∀ (order : List String) (k : Nat) (a : Analytics) (h : List Message),
      (∀ i, (outcomes i).isSome) →
      (batchLoop extract outcomes ts order k a h).history.length =
        h.length + order.length := by
  intro order
  induction order with
  | nil => intro k a h _; simp [batchLoop]
  | cons p ps ih =>
    intro k a h hall
    cases hk : outcomes k with
    | none => exact absurd (hk ▸ hall k) (by simp)
    | some response =>
      simp only [batchLoop, hk]
      rw [ih _ _ _ hall]
      simp [addMessage]
      omega

/-- Every successful guarded `processAIResponses` run decomposes into the
selection step, the invocation loop, the counter update and a branch-specific
event tail. -/
theorem processAIResponses_split (extract : String → List Idea) (cfg : Config)
    (registered active : List String) (rand : Nat → Nat)
    (outcomes : Nat → Option String) (ts : Nat) (s : SessionState)
    (hreg : registered.isEmpty = false)
    (hact : (registered.filter (fun p => active.contains p)).isEmpty
      = false) :
    ∃ (tail : List Event) (ar : Nat) (sched : Bool),
      processAIResponses extract cfg registered active rand outcomes ts s =
        ⟨⟨(batchLoop extract outcomes ts
              (selectProviders rand
                (registered.filter (fun p => active.contains p))
                s.history).1 0 s.analytics s.history).history,
          (batchLoop extract outcomes ts
              (selectProviders rand
                (registered.filter (fun p => active.contains p))
                s.history).1 0 s.analytics s.history).analytics,
          s.consecutiveAI + (selectProviders rand
              (registered.filter (fun p => active.contains p))
              s.history).1.length,
          ar⟩,
         (selectProviders rand
             (registered.filter (fun p => active.contains p))
             s.history).2 ++
           (batchLoop extract outcomes ts
             (selectProviders rand
               (registered.filter (fun p => active.contains p))
               s.history).1 0 s.analytics s.history).events ++ tail,
         sched⟩ := by
  unfold processAIResponses
  simp only [hreg, hact, Bool.false_eq_true, if_false]
  split_ifs with h1 h2 h3
  · exact ⟨_, _, _, rfl⟩
  · exact ⟨_, _, _, rfl⟩
  · exact ⟨_, _, _, rfl⟩
  · exact ⟨[], s.autoRounds, false, by simp⟩

/-! ## Claim C3: moderation pause -/

/-- C3: with the default threshold 4 in effect and at least 4 consecutive
provider messages accumulated since the last human message, a completed batch
emits a moderation-pause event and does not schedule a further automated
batch. -/
theorem c3_moderation_pause (extract : String → List Idea) (cfg : Config)
    (registered active : List String) (rand : Nat → Nat)
    (outcomes : Nat → Option String) (ts : Nat) (s : SessionState)
    (hreg : registered.isEmpty = false)
    (hact : (registered.filter (fun p => active.contains p)).isEmpty = false)
    (hthresh : jsOrNat cfg.moderationPause 4 = 4)
    (hcons : 4 ≤ s.consecutiveAI) :
    hasModerationPause (processAIResponses extract cfg registered active rand
        outcomes ts s).events = true ∧
      (processAIResponses extract cfg registered active rand outcomes ts
        s).scheduled = false := by
  unfold processAIResponses
  simp only [hreg, hact, Bool.false_eq_true, if_false]
  split_ifs with h1 h2 h3
  · exact ⟨by simp [hasModerationPause], rfl⟩
  · rw [hthresh] at h1; omega
  · rw [hthresh] at h1; omega
  · rw [hthresh] at h1; omega

/-- C3 witness: a two-provider conversation with 4 consecutive AI messages
already recorded pauses for moderation on the next batch and schedules
nothing. -/
theorem c3_moderation_pause_witness :
    hasModerationPause (processAIResponses trivialExtraction ⟨none, none⟩
        ["A", "B"] ["A", "B"] (fun _ => 0) (fun _ => none) 1
        ⟨[⟨"Human", "q", 0⟩, ⟨"A", "x", 1⟩], Analytics.init, 4, 0⟩).events
      = true ∧
    (processAIResponses trivialExtraction ⟨none, none⟩
        ["A", "B"] ["A", "B"] (fun _ => 0) (fun _ => none) 1
        ⟨[⟨"Human", "q", 0⟩, ⟨"A", "x", 1⟩], Analytics.init, 4, 0⟩).scheduled
      = false :=
  c3_moderation_pause trivialExtraction ⟨none, none⟩ ["A", "B"] ["A", "B"]
    (fun _ => 0) (fun _ => none) 1
    ⟨[⟨"Human", "q", 0⟩, ⟨"A", "x", 1⟩], Analytics.init, 4, 0⟩
    (by decide) (by decide) (by decide) (by decide)

/-! ## Claim C4: auto-round cap -/

theorem processAIResponses_autoRounds_spec (extract : String → List Idea)
    (cfg : Config) (registered active : List String) (rand : Nat → Nat)
    (outcomes : Nat → Option String) (ts : Nat) (s : SessionState) :
    (processAIResponses extract cfg registered active rand outcomes ts
        s).state.autoRounds =
      s.autoRounds + (if (processAIResponses extract cfg registered active
        rand outcomes ts s).scheduled then 1 else 0) ∧
    ((processAIResponses extract cfg registered active rand outcomes ts
        s).scheduled = true → s.autoRounds < 2) := by
  by_cases hreg : registered.isEmpty
  · unfold processAIResponses
    simp [hreg]
  · by_cases hact : (registered.filter (fun p => active.contains p)).isEmpty
    · unfold processAIResponses
      simp only [Bool.not_eq_true] at hreg
      simp only [hreg, Bool.false_eq_true, if_false, hact, if_true]
      simp
    · simp only [Bool.not_eq_true] at hreg hact
      unfold processAIResponses
      simp only [hreg, hact, Bool.false_eq_true, if_false]
      split_ifs with h1 h2 h3 <;> simp_all

theorem chainRun_counter_spec (extract : String → List Idea) (cfg : Config)
    (registered active : List String) (randF : Nat → Nat → Nat)
    (outF : Nat → Nat → Option String) (tsF : Nat → Nat) (s : SessionState)
    (h0 : s.autoRounds = 0) :
    ∀ n, (chainRun extract cfg registered active randF outF tsF s
        n).st.autoRounds =
        (chainRun extract cfg registered active randF outF tsF s
          n).schedCount ∧
      (chainRun extract cfg registered active randF outF tsF s
        n).st.autoRounds ≤ 2 := by
  intro n
  induction n with
  | zero => exact ⟨h0, by simp [chainRun, h0]⟩
  | succ n ih =>
    by_cases hrun : (chainRun extract cfg registered active randF outF tsF s
      n).running
    · have hspec := processAIResponses_autoRounds_spec extract cfg registered
        active (randF n) (outF n) (tsF n)
        (chainRun extract cfg registered active randF outF tsF s n).st
      simp only [chainRun, chainStep, hrun, if_true]
      constructor
      · rw [hspec.1, ih.1]
      · rw [hspec.1]
        by_cases hs : (processAIResponses extract cfg registered active
            (randF n) (outF n) (tsF n)
            (chainRun extract cfg registered active randF outF tsF s
              n).st).scheduled
        · have := hspec.2 hs
          simp only [hs, if_true]
          omega
        · simp only [hs, if_false]
          exact ih.2
    · simp only [chainRun, chainStep, hrun, if_false]
      exact ih

/-- C4: with auto-rounds enabled, at most 2 automatic continuation batches
are scheduled between two human inputs (the auto-round counter starts at 0 on
human input and never exceeds 2 along any continuation chain), and a batch
completing at the cap without a moderation pause emits the auto-rounds
complete notification and schedules nothing. -/
theorem c4_auto_round_cap :
    (∀ (extract : String → List Idea) (cfg : Config)
      (registered active : List String) (randF : Nat → Nat → Nat)
      (outF : Nat → Nat → Option String) (tsF : Nat → Nat)
      (s : SessionState), s.autoRounds = 0 → ∀ n,
      (chainRun extract cfg registered active randF outF tsF s
          n).schedCount ≤ 2 ∧
        (chainRun extract cfg registered active randF outF tsF s
          n).st.autoRounds ≤ 2) ∧
    (∀ (extract : String → List Idea) (cfg : Config)
      (registered active : List String) (rand : Nat → Nat)
      (outcomes : Nat → Option String) (ts : Nat) (s : SessionState),
      registered.isEmpty = false →
      (registered.filter (fun p => active.contains p)).isEmpty = false →
      cfg.autoRounds ≠ some false →
      2 ≤ s.autoRounds →
      hasModerationPause (processAIResponses extract cfg registered active
        rand outcomes ts s).events = false →
      Event.autoRoundComplete ∈ (processAIResponses extract cfg registered
          active rand outcomes ts s).events ∧
        (processAIResponses extract cfg registered active rand outcomes ts
          s).scheduled = false) := by
  constructor
  · intro extract cfg registered active randF outF tsF s h0 n
    have h := chainRun_counter_spec extract cfg registered active randF outF
      tsF s h0 n
    exact ⟨h.1 ▸ h.2, h.2⟩
  · intro extract cfg registered active rand outcomes ts s hreg hact hen hcap
      hnopause
    unfold processAIResponses at hnopause ⊢
    simp only [hreg, hact, Bool.false_eq_true, if_false] at hnopause ⊢
    split_ifs at hnopause ⊢ with h1 h2 h3
    · simp [hasModerationPause] at hnopause
    · omega
    · exact ⟨by simp, rfl⟩
    · exact absurd (by simpa using h2) hen

/-- C4 witness: along a concrete all-failure continuation chain the number of
scheduled continuations stays at most 2, and a batch run at the cap emits the
auto-rounds-complete notification without scheduling. -/
theorem c4_auto_round_cap_witness :
    ((chainRun trivialExtraction ⟨none, none⟩ ["A", "B"] ["A", "B"]
        (fun _ _ => 0) (fun _ _ => none) (fun _ => 1)
        ⟨[⟨"Human", "q", 0⟩, ⟨"A", "x", 1⟩], Analytics.init, 0, 0⟩
        5).schedCount ≤ 2 ∧
      (chainRun trivialExtraction ⟨none, none⟩ ["A", "B"] ["A", "B"]
        (fun _ _ => 0) (fun _ _ => none) (fun _ => 1)
        ⟨[⟨"Human", "q", 0⟩, ⟨"A", "x", 1⟩], Analytics.init, 0, 0⟩
        5).st.autoRounds ≤ 2) ∧
    (Event.autoRoundComplete ∈ (processAIResponses trivialExtraction
        ⟨none, none⟩ ["A", "B"] ["A", "B"] (fun _ => 0) (fun _ => none) 1
        ⟨[⟨"Human", "q", 0⟩, ⟨"A", "x", 1⟩], Analytics.init, 0, 2⟩).events ∧
      (processAIResponses trivialExtraction ⟨none, none⟩ ["A", "B"]
        ["A", "B"] (fun _ => 0) (fun _ => none) 1
        ⟨[⟨"Human", "q", 0⟩, ⟨"A", "x", 1⟩], Analytics.init, 0,
          2⟩).scheduled = false) :=
  ⟨c4_auto_round_cap.1 trivialExtraction ⟨none, none⟩ ["A", "B"] ["A", "B"]
      (fun _ _ => 0) (fun _ _ => none) (fun _ => 1)
      ⟨[⟨"Human", "q", 0⟩, ⟨"A", "x", 1⟩], Analytics.init, 0, 0⟩ rfl 5,
    c4_auto_round_cap.2 trivialExtraction ⟨none, none⟩ ["A", "B"] ["A", "B"]
      (fun _ => 0) (fun _ => none) 1
      ⟨[⟨"Human", "q", 0⟩, ⟨"A", "x", 1⟩], Analytics.init, 0, 2⟩
      (by decide) (by decide) (by decide) (by decide) (by decide)⟩

/-! ## Claim C5: consecutive-AI-message accounting -/

/-- C5 counterexample: in a two-provider first batch where the first queued
provider fails and the second succeeds, the consecutive-AI-message counter
grows by 2 while only 1 provider response is recorded, so the counter's
increase does not equal the number of responses produced. -/
theorem c5_consecutive_counter_counterexample :
    ¬ ((processAIResponses trivialExtraction ⟨some false, none⟩ ["A", "B"]
          ["A", "B"] (fun _ => 0)
          (fun k => if k == 0 then none else some "hi") 5
          ⟨[⟨"Human", "q", 0⟩], Analytics.init, 0, 0⟩).state.consecutiveAI
          - 0 =
        (processAIResponses trivialExtraction ⟨some false, none⟩ ["A", "B"]
          ["A", "B"] (fun _ => 0)
          (fun k => if k == 0 then none else some "hi") 5
          ⟨[⟨"Human", "q", 0⟩], Analytics.init, 0,
            0⟩).state.history.length - 1) := by
  decide

/-- C5 as amended: after every completed (guarded) batch the
consecutive-AI-message counter has increased by exactly the number of
providers selected into the batch — attempted invocations, failures
included — which coincides with the number of responses recorded only when
every invocation in the batch succeeds. -/
theorem c5_consecutive_counter (extract : String → List Idea) (cfg : Config)
    (registered active : List String) (rand : Nat → Nat)
    (outcomes : Nat → Option String) (ts : Nat) (s : SessionState)
    (hreg : registered.isEmpty = false)
    (hact : (registered.filter (fun p => active.contains p)).isEmpty
      = false) :
    (processAIResponses extract cfg registered active rand outcomes ts
        s).state.consecutiveAI =
      s.consecutiveAI + (selectProviders rand
        (registered.filter (fun p => active.contains p))
        s.history).1.length ∧
    ((∀ i, (outcomes i).isSome) →
      (processAIResponses extract cfg registered active rand outcomes ts
          s).state.history.length =
        s.history.length + (selectProviders rand
          (registered.filter (fun p => active.contains p))
          s.history).1.length) := by
  obtain ⟨tail, ar, sched, heq⟩ := processAIResponses_split extract cfg
    registered active rand outcomes ts s hreg hact
  rw [heq]
  constructor
  · rfl
  · intro hall
    exact batchLoop_length_all_success extract outcomes ts _ 0 s.analytics
      s.history hall

/-- C5 witness: the amended statement on a concrete all-success two-provider
batch, where the counter and the history both grow by the batch size 2. -/
theorem c5_consecutive_counter_witness :
    (processAIResponses trivialExtraction ⟨some false, none⟩ ["A", "B"]
        ["A", "B"] (fun _ => 0) (fun _ => some "ok") 5
        ⟨[⟨"Human", "q", 0⟩], Analytics.init, 0, 0⟩).state.consecutiveAI =
      0 + (selectProviders (fun _ => 0) (["A", "B"].filter
        (fun p => ["A", "B"].contains p)) [⟨"Human", "q", 0⟩]).1.length ∧
    ((∀ _i : Nat, (some "ok" : Option String).isSome) →
      (processAIResponses trivialExtraction ⟨some false, none⟩ ["A", "B"]
          ["A", "B"] (fun _ => 0) (fun _ => some "ok") 5
          ⟨[⟨"Human", "q", 0⟩], Analytics.init, 0,
            0⟩).state.history.length =
        1 + (selectProviders (fun _ => 0) (["A", "B"].filter
          (fun p => ["A", "B"].contains p)) [⟨"Human", "q", 0⟩]).1.length) :=
  c5_consecutive_counter trivialExtraction ⟨some false, none⟩ ["A", "B"]
    ["A", "B"] (fun _ => 0) (fun _ => some "ok") 5
    ⟨[⟨"Human", "q", 0⟩], Analytics.init, 0, 0⟩ (by decide) (by decide)

/-! ## Claim C6: reset on human input -/

/-- C6: recording a human message resets both the consecutive-AI-message
counter and the auto-round counter to 0 in every session state, and the batch
subsequently triggered by the handler is computed on exactly that reset
state. -/
theorem c6_human_reset (extract : String → List Idea) (s : SessionState)
    (message : String) (ts : Nat) :
    (recordHumanMessage extract s message ts).1.consecutiveAI = 0 ∧
    (recordHumanMessage extract s message ts).1.autoRounds = 0 ∧
    ∀ (cfg : Config) (registered active : List String) (rand : Nat → Nat)
      (outcomes : Nat → Option String),
      handleHumanMessage extract cfg registered active rand outcomes ts s
          message =
        ⟨(processAIResponses extract cfg registered active rand outcomes ts
            (recordHumanMessage extract s message ts).1).state,
         (recordHumanMessage extract s message ts).2 ++
           (processAIResponses extract cfg registered active rand outcomes ts
             (recordHumanMessage extract s message ts).1).events,
         (processAIResponses extract cfg registered active rand outcomes ts
           (recordHumanMessage extract s message ts).1).scheduled⟩ :=
  ⟨rfl, rfl, fun _ _ _ _ _ => rfl⟩

/-! ## Claim C7: partial-failure tolerance -/

/-- C7: in every guarded batch, a failing provider invocation is caught and
reported as a per-provider error event, every queued provider is still
attempted (a thinking event is emitted for each), and the history is extended
by exactly the cleaned messages of the successful providers, in queue
order. -/
theorem c7_partial_failure_tolerance (extract : String → List Idea)
    (cfg : Config) (registered active : List String) (rand : Nat → Nat)
    (outcomes : Nat → Option String) (ts : Nat) (s : SessionState)
    (hreg : registered.isEmpty = false)
    (hact : (registered.filter (fun p => active.contains p)).isEmpty
      = false) :
    (processAIResponses extract cfg registered active rand outcomes ts
        s).state.history =
      s.history ++ (List.enumFrom 0 (selectProviders rand
          (registered.filter (fun p => active.contains p))
          s.history).1).filterMap (fun kp =>
        (outcomes kp.1).map (fun response =>
          (⟨kp.2, cleanResponseText response kp.2, ts⟩ : Message))) ∧
    (∀ p ∈ (selectProviders rand
        (registered.filter (fun p => active.contains p)) s.history).1,
      Event.aiThinking p ∈ (processAIResponses extract cfg registered active
        rand outcomes ts s).events) ∧
    (∀ kp ∈ List.enumFrom 0 (selectProviders rand
        (registered.filter (fun p => active.contains p)) s.history).1,
      outcomes kp.1 = none →
      Event.aiError kp.2 ∈ (processAIResponses extract cfg registered active
        rand outcomes ts s).events) := by
  obtain ⟨tail, ar, sched, heq⟩ := processAIResponses_split extract cfg
    registered active rand outcomes ts s hreg hact
  rw [heq]
  refine ⟨?_, ?_, ?_⟩
  · exact batchLoop_history_spec extract outcomes ts _ 0 s.analytics
      s.history
  · intro p hp
    have := batchLoop_thinking_spec extract outcomes ts _ 0 s.analytics
      s.history p hp
    simp only [List.mem_append]
    exact Or.inl (Or.inr this)
  · intro kp hkp hnone
    obtain ⟨i, p⟩ := kp
    have := batchLoop_error_spec extract outcomes ts _ 0 s.analytics
      s.history i p hkp hnone
    simp only [List.mem_append]
    exact Or.inl (Or.inr this)

/-- C7 witness: in a concrete first batch with speaking order `["B", "A"]`
where `B` fails and `A` succeeds, both providers get thinking events, `B`
gets an error event, and the history gains exactly the message of `A`. -/
theorem c7_partial_failure_tolerance_witness :
    Event.aiThinking "B" ∈ (processAIResponses trivialExtraction
        ⟨some false, none⟩ ["A", "B"] ["A", "B"] (fun _ => 0)
        (fun k => if k == 0 then none else some "ok") 5
        ⟨[⟨"Human", "q", 0⟩], Analytics.init, 0, 0⟩).events ∧
    Event.aiError "B" ∈ (processAIResponses trivialExtraction
        ⟨some false, none⟩ ["A", "B"] ["A", "B"] (fun _ => 0)
        (fun k => if k == 0 then none else some "ok") 5
        ⟨[⟨"Human", "q", 0⟩], Analytics.init, 0, 0⟩).events ∧
    (processAIResponses trivialExtraction ⟨some false, none⟩ ["A", "B"]
        ["A", "B"] (fun _ => 0)
        (fun k => if k == 0 then none else some "ok") 5
        ⟨[⟨"Human", "q", 0⟩], Analytics.init, 0, 0⟩).state.history =
      [⟨"Human", "q", 0⟩, ⟨"A", "ok", 5⟩] := by
  have h := c7_partial_failure_tolerance trivialExtraction ⟨some false, none⟩
    ["A", "B"] ["A", "B"] (fun _ => 0)
    (fun k => if k == 0 then none else some "ok") 5
    ⟨[⟨"Human", "q", 0⟩], Analytics.init, 0, 0⟩ (by decide) (by decide)
  refine ⟨h.2.1 "B" (by decide), h.2.2 (0, "B") (by decide) (by decide), ?_⟩
  rw [h.1]
  decide

end Apogee
